import Mathlib

/-!
Verification of `conciliacao_conexa_banco_sem_saldo.py`, a bank/ERP
reconciliation tool.  The Python source is shallowly embedded below:
pandas DataFrames become lists of records, the `defaultdict` amount index
becomes a function `ℚ → List ℕ`, monetary floats become `ℚ`, parse
failures (`NaN` / `NaT` produced by `errors="coerce"`) become `Option`.
-/

namespace Conciliacao

/-- A parsed calendar date `(day, month, year)`; the matcher never inspects
dates, it only copies them, so the representation is opaque to it. -/
abbrev Datum := ℕ × ℕ × ℕ

/-- One normalized bank row produced by `ler_excel_banco`:
columns `Tipo`, `Protocolo`, `Data`, `Valor`.  `valor = none` models the
`NaN` sentinel left by `pd.to_numeric(errors="coerce")`, `data = none`
models `NaT`. -/
structure BankRecord where
  tipo : String
  protocolo : String
  data : Option Datum
  valor : Option ℚ
  deriving DecidableEq, Repr

/-- One normalized ERP ("Conexa") row produced by `ler_excel_conexa`:
columns `Quitação`, `Valor`, `Fornecedor`. -/
structure ErpRecord where
  quitacao : Option Datum
  valor : Option ℚ
  fornecedor : String
  deriving DecidableEq, Repr

instance : Inhabited ErpRecord := ⟨⟨none, none, ""⟩⟩

/-- One output row (`linha`) of `conciliar_linha_a_linha`.  The extra field
`idxErp` records the ERP index `idx_erp` popped from the per-amount queue
(`none` when no ERP record was consumed); in the Python it is the local
variable used for the `erp.loc[idx_erp]` lookup. -/
structure ReconciledRow where
  dataBanco : Option Datum
  valorBanco : Option ℚ
  tipoBanco : String
  protocoloBanco : String
  dataErpQuitacao : Option Datum
  valorErp : Option ℚ
  fornecedorErp : String
  status : String
  idxErp : Option ℕ
  deriving DecidableEq, Repr

/-- A raw spreadsheet table as handed to the readers by `pd.read_excel`:
header names plus rows of cell strings aligned positionally with the
header.  Cell values are modelled as the strings the source feeds to
`astype(str)` and the parsers. -/
structure RawTable where
  columns : List String
  rows : List (List String)
  deriving DecidableEq, Repr

/-- The `ValueError` raised when required columns are missing: it reports
the missing required names (`faltando`) and the full list of columns
actually found (`encontradas`). -/
structure MissingColumnsError where
  faltando : List String
  encontradas : List String
  deriving DecidableEq, Repr

/-- Python `str.strip()`: remove leading and trailing whitespace.
(Implemented on the character list so that it evaluates by kernel
reduction.) -/
def strip (s : String) : String :=
  ⟨((s.data.dropWhile Char.isWhitespace).reverse.dropWhile
      Char.isWhitespace).reverse⟩

instance {ε α : Type} [DecidableEq ε] [DecidableEq α] :
    DecidableEq (Except ε α) := fun a b =>
  match a, b with
  | .error e1, .error e2 =>
    if h : e1 = e2 then .isTrue (h ▸ rfl)
    else .isFalse fun hc => h (Except.error.inj hc)
  | .error _, .ok _ => .isFalse fun hc => Except.noConfusion hc
  | .ok _, .error _ => .isFalse fun hc => Except.noConfusion hc
  | .ok x, .ok y =>
    if h : x = y then .isTrue (h ▸ rfl)
    else .isFalse fun hc => h (Except.ok.inj hc)

/-- Membership in `cols = {c.strip(): c for c in df.columns}`: is there a
column whose stripped name equals `name`? -/
def temColuna (columns : List String) (name : String) : Bool :=
  columns.any fun c => strip c == name

/-- Lookup `cols[name]` in the dict comprehension: with duplicate stripped
keys the later entry wins, so this is the last raw header whose stripped
form is `name`. -/
def colRaw (columns : List String) (name : String) : Option String :=
  columns.reverse.find? fun c => strip c == name

/-- `faltando = [c for c in obrig if c not in cols]`. -/
def colunasFaltando (obrig columns : List String) : List String :=
  obrig.filter fun c => !temColuna columns c

/-- The cell of `row` under the raw header `raw` (`df[raw]`, one row). -/
def celula (columns : List String) (row : List String) (raw : String) :
    String :=
  (row[columns.indexOf raw]?).getD ""

/-- ASCII digit test. -/
def ehDigito (c : Char) : Bool := '0' ≤ c && c ≤ '9'

/-- Numeric value of a digit string, most significant digit first. -/
def valorDigitos (ds : List Char) : ℕ :=
  ds.foldl (fun n c => 10 * n + (c.toNat - 48)) 0

/-- Modelled from the spec: pandas `pd.to_numeric(errors="coerce")` on one
cell string (pandas itself is outside the repository), restricted to plain
decimal numerals — optional surrounding whitespace, an optional sign, and
digits with at most one decimal point, as accepted by Python `float`.
Anything else, e.g. a string containing two dots, coerces to `NaN`,
modelled as `none`. -/
def to_numeric (s : String) : Option ℚ :=
  let cs := (strip s).data
  let sinal : ℤ := if cs.head? = some '-' then -1 else 1
  let cs := if cs.head? = some '-' ∨ cs.head? = some '+' then cs.tail else cs
  let intPart := cs.takeWhile ehDigito
  let resto := cs.dropWhile ehDigito
  match resto with
  | [] =>
    if intPart.isEmpty then none
    else some (mkRat (sinal * (valorDigitos intPart : ℤ)) 1)
  | '.' :: frac =>
    if frac.all ehDigito ∧ ¬ (intPart.isEmpty ∧ frac.isEmpty) then
      some (mkRat
        (sinal * ((valorDigitos intPart * 10 ^ frac.length + valorDigitos frac : ℕ) : ℤ))
        (10 ^ frac.length))
    else none
  | _ => none

/-- `.str.replace(",", ".", regex=False)` on one cell: every comma becomes
a dot. -/
def substituirVirgulaPorPonto (s : String) : String :=
  ⟨s.data.map fun c => if c = ',' then '.' else c⟩

/-- The `Valor` normalization used by both readers:
`pd.to_numeric(df[...].astype(str).str.replace(",", "."), errors="coerce")`. -/
def parseValor (s : String) : Option ℚ :=
  to_numeric (substituirVirgulaPorPonto s)

/-- Split a character list at every `'/'` (the groups between slashes, in
order; always at least one group). -/
def quebrarEmBarras : List Char → List (List Char)
  | [] => [[]]
  | c :: cs =>
    let r := quebrarEmBarras cs
    if c = '/' then [] :: r
    else (c :: r.headD []) :: r.tail

/-- Modelled from the spec: `pd.to_datetime(..., errors="coerce",
dayfirst=True)` on one cell (pandas itself is outside the repository),
restricted to the day-first `dd/mm/yyyy` shape the spec names; anything
else coerces to `NaT`, modelled as `none`.  The matcher never inspects the
parsed value, it only copies it. -/
def to_datetime (s : String) : Option Datum :=
  match quebrarEmBarras (strip s).data with
  | [d, m, y] =>
    if (d ≠ [] ∧ m ≠ [] ∧ y ≠ []) ∧
        d.all ehDigito ∧ m.all ehDigito ∧ y.all ehDigito then
      some (valorDigitos d, valorDigitos m, valorDigitos y)
    else none
  | _ => none

/-- `ler_excel_banco`: checks the required columns `Data` and `Valor`,
then normalizes every row into a `BankRecord`; `Tipo` and `Protocolo`
default to `""` when absent.  The missing-column error is the only
failure — cell-level parse failures degrade to sentinels in the records. -/
def ler_excel_banco (t : RawTable) :
    Except MissingColumnsError (List BankRecord) :=
  let faltando := colunasFaltando ["Data", "Valor"] t.columns
  if faltando.isEmpty then
    .ok (t.rows.map fun row =>
      { tipo := match colRaw t.columns "Tipo" with
          | some raw => celula t.columns row raw
          | none => ""
        protocolo := match colRaw t.columns "Protocolo" with
          | some raw => celula t.columns row raw
          | none => ""
        data := match colRaw t.columns "Data" with
          | some raw => to_datetime (celula t.columns row raw)
          | none => none
        valor := match colRaw t.columns "Valor" with
          | some raw => parseValor (celula t.columns row raw)
          | none => none })
  else
    .error ⟨faltando, t.columns⟩

/-- `ler_excel_conexa`: checks the required columns `Quitação` and
`Valor`, then normalizes every row into an `ErpRecord`; `Fornecedor`
defaults to `""` when absent. -/
def ler_excel_conexa (t : RawTable) :
    Except MissingColumnsError (List ErpRecord) :=
  let faltando := colunasFaltando ["Quitação", "Valor"] t.columns
  if faltando.isEmpty then
    .ok (t.rows.map fun row =>
      { quitacao := match colRaw t.columns "Quitação" with
          | some raw => to_datetime (celula t.columns row raw)
          | none => none
        valor := match colRaw t.columns "Valor" with
          | some raw => parseValor (celula t.columns row raw)
          | none => none
        fornecedor := match colRaw t.columns "Fornecedor" with
          | some raw => celula t.columns row raw
          | none => "" })
  else
    .error ⟨faltando, t.columns⟩

/-- The per-amount FIFO index of positive ERP rows
(`index_por_valor` in the source): for an amount `q`, the original indices
of the ERP rows whose `Valor` is `> 0` and equals `q`, in original order.
The Python builds this by iterating `erp_pos = erp[erp["Valor"] > 0]` and
appending each index to `index_por_valor[row["Valor"]]`; pandas `NaN > 0`
is false, so rows with unparseable `Valor` are excluded. -/
def index_por_valor (erp : List ErpRecord) (q : ℚ) : List ℕ :=
  ((erp.enum.filter fun ie =>
      match ie.2.valor with
      | some v => decide (0 < v) && decide (v = q)
      | none => false)).map Prod.fst

/-- The `linha` dict as first initialized for a bank record `b`, before
the status/match fields are filled in. -/
def linhaBase (b : BankRecord) : ReconciledRow :=
  { dataBanco := b.data
    valorBanco := b.valor
    tipoBanco := b.tipo
    protocoloBanco := b.protocolo
    dataErpQuitacao := none        -- pd.NaT
    valorErp := none               -- pd.NA
    fornecedorErp := ""
    status := ""
    idxErp := none }

/-- One iteration of the `for _, b in banco.iterrows()` loop: builds the
output row for bank record `b` and threads the mutable per-amount index
(`candidatos.pop(0)` mutates the queue stored in the dict). -/
def conciliarStep (erp : List ErpRecord) (b : BankRecord)
    (f : ℚ → List ℕ) : ReconciledRow × (ℚ → List ℕ) :=
  let linha : ReconciledRow := linhaBase b
  match b.valor with
  | none =>                          -- pd.isna(v)
    ({ linha with status := "Zero ou inválido" }, f)
  | some v =>
    if 0 < v then
      ({ linha with status := "Entrada no Banco" }, f)
    else
      let alvo := |v|
      match f alvo with
      | [] => ({ linha with status := "Não conciliado" }, f)
      | idx :: rest =>
        -- `erp.loc[idx_erp]`; the index invariant guarantees `idx` is a
        -- valid position, so the `getD` default is never read.
        let e := (erp[idx]?).getD default
        ({ linha with
            dataErpQuitacao := e.quitacao
            valorErp := e.valor
            fornecedorErp := e.fornecedor
            status := "Conciliado"
            idxErp := some idx },
         fun q => if q = alvo then rest else f q)

/-- The bank-record loop of `conciliar_linha_a_linha`, accumulating
`linhas` while threading the mutable index. -/
def conciliarAux (erp : List ErpRecord) (f : ℚ → List ℕ) :
    List BankRecord → List ReconciledRow
  | [] => []
  | b :: bs =>
    let p := conciliarStep erp b f
    p.1 :: conciliarAux erp p.2 bs

/-- `conciliar_linha_a_linha(banco, erp)`: one output row per bank row. -/
def conciliar_linha_a_linha (banco : List BankRecord)
    (erp : List ErpRecord) : List ReconciledRow :=
  conciliarAux erp (index_por_valor erp) banco

/-- The state of the per-amount index after processing a prefix of the
bank records (used to phrase positional facts about the loop). -/
def estadoApos (erp : List ErpRecord) (f : ℚ → List ℕ) :
    List BankRecord → (ℚ → List ℕ)
  | [] => f
  | b :: bs => estadoApos erp (conciliarStep erp b f).2 bs

/-- Invariant maintained by the per-amount index: every queue is
duplicate-free, and every queued index points at an ERP row whose `Valor`
parsed to exactly the queue's (positive) key. -/
def Inv (erp : List ErpRecord) (f : ℚ → List ℕ) : Prop :=
  (∀ q, (f q).Nodup) ∧
  (∀ q i, i ∈ f q → 0 < q ∧ ∃ e, erp[i]? = some e ∧ e.valor = some q)

/-- The ERP indices consumed by the output rows, in row order. -/
def matchedIdxs (rows : List ReconciledRow) : List ℕ :=
  rows.filterMap (·.idxErp)

theorem conciliarStep_eq_none (erp : List ErpRecord) (b : BankRecord)
    (f : ℚ → List ℕ) (hb : b.valor = none) :
    conciliarStep erp b f =
      ({ linhaBase b with status := "Zero ou inválido" }, f) := by
  simp [conciliarStep, hb]

theorem conciliarStep_eq_pos (erp : List ErpRecord) (b : BankRecord)
    (f : ℚ → List ℕ) (v : ℚ) (hb : b.valor = some v) (hv : 0 < v) :
    conciliarStep erp b f =
      ({ linhaBase b with status := "Entrada no Banco" }, f) := by
  simp [conciliarStep, hb, hv]

theorem conciliarStep_eq_nomatch (erp : List ErpRecord) (b : BankRecord)
    (f : ℚ → List ℕ) (v : ℚ) (hb : b.valor = some v) (hv : ¬ 0 < v)
    (hf : f |v| = []) :
    conciliarStep erp b f =
      ({ linhaBase b with status := "Não conciliado" }, f) := by
  simp [conciliarStep, hb, hv, hf]

theorem conciliarStep_eq_match (erp : List ErpRecord) (b : BankRecord)
    (f : ℚ → List ℕ) (v : ℚ) (idx : ℕ) (rest : List ℕ)
    (hb : b.valor = some v) (hv : ¬ 0 < v) (hf : f |v| = idx :: rest) :
    conciliarStep erp b f =
      ({ linhaBase b with
          dataErpQuitacao := ((erp[idx]?).getD default).quitacao
          valorErp := ((erp[idx]?).getD default).valor
          fornecedorErp := ((erp[idx]?).getD default).fornecedor
          status := "Conciliado"
          idxErp := some idx },
       fun q => if q = |v| then rest else f q) := by
  simp [conciliarStep, hb, hv, hf]

theorem conciliarAux_length (erp : List ErpRecord) (f : ℚ → List ℕ)
    (bs : List BankRecord) :
    (conciliarAux erp f bs).length = bs.length := by
  induction bs generalizing f with
  | nil => rfl
  | cons b bs ih => simpa [conciliarAux] using ih _

theorem conciliarAux_getElem? (erp : List ErpRecord) (f : ℚ → List ℕ)
    (bs : List BankRecord) (i : ℕ) :
    (conciliarAux erp f bs)[i]? =
      (bs[i]?).map
        (fun b => (conciliarStep erp b (estadoApos erp f (bs.take i))).1) := by
  induction bs generalizing f i with
  | nil => simp [conciliarAux]
  | cons b bs ih =>
    cases i with
    | zero => simp [conciliarAux, estadoApos]
    | succ i => simpa [conciliarAux, estadoApos] using ih _ _

/-- The four bank columns of an output row are copied verbatim from the
bank record, whatever branch is taken. -/
theorem conciliarStep_bankFields (erp : List ErpRecord) (b : BankRecord)
    (f : ℚ → List ℕ) :
    (conciliarStep erp b f).1.dataBanco = b.data ∧
    (conciliarStep erp b f).1.valorBanco = b.valor ∧
    (conciliarStep erp b f).1.tipoBanco = b.tipo ∧
    (conciliarStep erp b f).1.protocoloBanco = b.protocolo := by
  cases hb : b.valor with
  | none => rw [conciliarStep_eq_none erp b f hb]; simp [linhaBase, hb]
  | some v =>
    by_cases hv : 0 < v
    · rw [conciliarStep_eq_pos erp b f v hb hv]; simp [linhaBase, hb]
    · cases hf : f |v| with
      | nil =>
        rw [conciliarStep_eq_nomatch erp b f v hb hv hf]
        simp [linhaBase, hb]
      | cons idx rest =>
        rw [conciliarStep_eq_match erp b f v idx rest hb hv hf]
        simp [linhaBase, hb]

theorem mem_index_por_valor (erp : List ErpRecord) (q : ℚ) (i : ℕ) :
    i ∈ index_por_valor erp q ↔
      0 < q ∧ ∃ e, erp[i]? = some e ∧ e.valor = some q := by
  unfold index_por_valor
  constructor
  · rintro hmem
    obtain ⟨⟨j, e⟩, hfil, rfl⟩ := List.mem_map.1 hmem
    obtain ⟨henum, hp⟩ := List.mem_filter.1 hfil
    have hget := List.mk_mem_enum_iff_getElem?.1 henum
    cases hval : e.valor with
    | none => simp [hval] at hp
    | some v =>
      simp only [hval, Bool.and_eq_true, decide_eq_true_eq] at hp
      exact ⟨hp.2 ▸ hp.1, e, hget, hval ▸ congrArg _ hp.2⟩
  · rintro ⟨hq, e, hget, hval⟩
    refine List.mem_map.2 ⟨(i, e), List.mem_filter.2 ⟨?_, ?_⟩, rfl⟩
    · exact List.mk_mem_enum_iff_getElem?.2 hget
    · simp [hval, hq]

theorem index_por_valor_nodup (erp : List ErpRecord) (q : ℚ) :
    (index_por_valor erp q).Nodup := by
  have hsub : (index_por_valor erp q).Sublist (erp.enum.map Prod.fst) :=
    (List.filter_sublist _).map Prod.fst
  have : (erp.enum.map Prod.fst).Nodup := by
    rw [List.enum_map_fst]; exact List.nodup_range _
  exact this.sublist hsub

/-- Queues list ERP indices in strictly increasing (original) order. -/
theorem index_por_valor_sorted (erp : List ErpRecord) (q : ℚ) :
    (index_por_valor erp q).Pairwise (· < ·) := by
  unfold index_por_valor
  have hrange : (erp.enum.map Prod.fst).Pairwise (· < ·) := by
    rw [List.enum_map_fst]; exact List.pairwise_lt_range _
  have henum : erp.enum.Pairwise (fun a b => a.1 < b.1) :=
    (List.pairwise_map).1 hrange
  exact (List.pairwise_map).2 (henum.sublist (List.filter_sublist _))

theorem inv_index_por_valor (erp : List ErpRecord) :
    Inv erp (index_por_valor erp) :=
  ⟨fun q => index_por_valor_nodup erp q,
   fun q i h => (mem_index_por_valor erp q i).1 h⟩

/-- Whatever the branch, the updated index's queues only shrink:
membership after a step implies membership before. -/
theorem conciliarStep_state_sub (erp : List ErpRecord) (b : BankRecord)
    (f : ℚ → List ℕ) (q : ℚ) (i : ℕ)
    (h : i ∈ (conciliarStep erp b f).2 q) : i ∈ f q := by
  cases hb : b.valor with
  | none => rwa [conciliarStep_eq_none erp b f hb] at h
  | some v =>
    by_cases hv : 0 < v
    · rwa [conciliarStep_eq_pos erp b f v hb hv] at h
    · cases hf : f |v| with
      | nil => rwa [conciliarStep_eq_nomatch erp b f v hb hv hf] at h
      | cons idx rest =>
        rw [conciliarStep_eq_match erp b f v idx rest hb hv hf] at h
        by_cases hq : q = |v|
        · subst hq
          simp only [if_pos rfl] at h
          exact hf ▸ List.mem_cons_of_mem _ h
        · simpa [hq] using h

/-- A step preserves the index invariant. -/
theorem conciliarStep_inv (erp : List ErpRecord) (b : BankRecord)
    (f : ℚ → List ℕ) (hInv : Inv erp f) :
    Inv erp (conciliarStep erp b f).2 := by
  refine ⟨?_, fun q i h => hInv.2 q i (conciliarStep_state_sub erp b f q i h)⟩
  intro q
  cases hb : b.valor with
  | none => rw [conciliarStep_eq_none erp b f hb]; exact hInv.1 q
  | some v =>
    by_cases hv : 0 < v
    · rw [conciliarStep_eq_pos erp b f v hb hv]; exact hInv.1 q
    · cases hf : f |v| with
      | nil => rw [conciliarStep_eq_nomatch erp b f v hb hv hf]; exact hInv.1 q
      | cons idx rest =>
        rw [conciliarStep_eq_match erp b f v idx rest hb hv hf]
        by_cases hq : q = |v|
        · subst hq
          simp only [if_pos rfl]
          exact (List.nodup_cons.1 (hf ▸ hInv.1 |v|)).2
        · simp only [if_neg hq]
          exact hInv.1 q

/-- Every output row arises from applying the step function to its bank
record at some invariant-satisfying index state. -/
theorem mem_conciliarAux (erp : List ErpRecord) (f : ℚ → List ℕ)
    (bs : List BankRecord) (r : ReconciledRow) (hInv : Inv erp f)
    (hr : r ∈ conciliarAux erp f bs) :
    ∃ b g, b ∈ bs ∧ Inv erp g ∧ r = (conciliarStep erp b g).1 := by
  induction bs generalizing f with
  | nil => simp [conciliarAux] at hr
  | cons b bs ih =>
    simp only [conciliarAux, List.mem_cons] at hr
    rcases hr with h | h
    · exact ⟨b, f, List.mem_cons_self b bs, hInv, h⟩
    · obtain ⟨b2, g, hb2, hg, hr2⟩ := ih _ (conciliarStep_inv erp b f hInv) h
      exact ⟨b2, g, List.mem_cons_of_mem _ hb2, hg, hr2⟩

/-- Under the invariant, the consumed ERP indices are duplicate-free, and
every consumed index was present in some queue of the starting state. -/
theorem conciliarAux_matched (erp : List ErpRecord) (f : ℚ → List ℕ)
    (bs : List BankRecord) (hInv : Inv erp f) :
    (matchedIdxs (conciliarAux erp f bs)).Nodup ∧
    ∀ k ∈ matchedIdxs (conciliarAux erp f bs), ∃ q, k ∈ f q := by
  induction bs generalizing f with
  | nil => simp [conciliarAux, matchedIdxs]
  | cons b bs ih =>
    obtain ⟨ihn, ihm⟩ := ih (conciliarStep erp b f).2 (conciliarStep_inv erp b f hInv)
    have hsub : ∀ k ∈ matchedIdxs (conciliarAux erp (conciliarStep erp b f).2 bs),
        ∃ q, k ∈ f q := by
      intro k hk
      obtain ⟨q, hq⟩ := ihm k hk
      exact ⟨q, conciliarStep_state_sub erp b f q k hq⟩
    cases hb : b.valor with
    | none =>
      have hstep := conciliarStep_eq_none erp b f hb
      simp only [conciliarAux, matchedIdxs, List.filterMap_cons, hstep] at *
      simpa [matchedIdxs, linhaBase] using And.intro ihn hsub
    | some v =>
      by_cases hv : 0 < v
      · have hstep := conciliarStep_eq_pos erp b f v hb hv
        simp only [conciliarAux, matchedIdxs, List.filterMap_cons, hstep] at *
        simpa [matchedIdxs, linhaBase] using And.intro ihn hsub
      · cases hf : f |v| with
        | nil =>
          have hstep := conciliarStep_eq_nomatch erp b f v hb hv hf
          simp only [conciliarAux, matchedIdxs, List.filterMap_cons, hstep] at *
          simpa [matchedIdxs, linhaBase] using And.intro ihn hsub
        | cons idx rest =>
          have hstep := conciliarStep_eq_match erp b f v idx rest hb hv hf
          have hidx : idx ∈ f |v| := by rw [hf]; exact List.mem_cons_self idx rest
          have hnotail :
              idx ∉ matchedIdxs (conciliarAux erp (conciliarStep erp b f).2 bs) := by
            intro hmem
            obtain ⟨q, hq⟩ := ihm idx hmem
            rw [hstep] at hq
            by_cases hqv : q = |v|
            · subst hqv
              simp only [if_pos rfl] at hq
              exact (List.nodup_cons.1 (hf ▸ hInv.1 |v|)).1 hq
            · simp only [if_neg hqv] at hq
              obtain ⟨_, e1, hg1, hv1⟩ := hInv.2 q idx hq
              obtain ⟨_, e2, hg2, hv2⟩ := hInv.2 |v| idx hidx
              rw [hg1] at hg2
              cases Option.some.injEq e1 e2 ▸ hg2
              rw [hv1] at hv2
              exact hqv (Option.some.inj hv2)
          constructor
          · simp only [conciliarAux, matchedIdxs, List.filterMap_cons, hstep]
            refine List.nodup_cons.2 ⟨?_, ?_⟩
            · simpa [matchedIdxs, hstep] using hnotail
            · simpa [matchedIdxs, hstep] using ihn
          · intro k hk
            simp only [conciliarAux, matchedIdxs, List.filterMap_cons, hstep] at hk
            rcases List.mem_cons.1 hk with rfl | hk2
            · exact ⟨|v|, hidx⟩
            · exact hsub k (by simpa [matchedIdxs, hstep] using hk2)

/-- C1: `conciliar_linha_a_linha` returns exactly one output row per bank
record — the output has the same length as the bank input — and row `i`
is derived from bank record `i`: its four bank columns are copied from
that record. -/
theorem claim_C1 (banco : List BankRecord) (erp : List ErpRecord) :
    (conciliar_linha_a_linha banco erp).length = banco.length ∧
    ∀ (i : ℕ) (b : BankRecord), banco[i]? = some b →
      ∃ r, (conciliar_linha_a_linha banco erp)[i]? = some r ∧
        r.dataBanco = b.data ∧ r.valorBanco = b.valor ∧
        r.tipoBanco = b.tipo ∧ r.protocoloBanco = b.protocolo := by
  unfold conciliar_linha_a_linha
  refine ⟨conciliarAux_length erp (index_por_valor erp) banco,
          fun i b hb => ?_⟩
  have hq := conciliarAux_getElem? erp (index_por_valor erp) banco i
  rw [hb] at hq
  simp only [Option.map_some'] at hq
  exact ⟨_, hq, conciliarStep_bankFields erp b _⟩

/-- Witness for C1: a one-record bank input, evaluated concretely. -/
theorem claim_C1_witness :
    (([⟨"pix", "p1", none, some 7⟩] : List BankRecord)[0]? =
        some ⟨"pix", "p1", none, some 7⟩) ∧
    (∃ r, (conciliar_linha_a_linha [⟨"pix", "p1", none, some 7⟩] [])[0]? =
        some r ∧
        r.dataBanco = none ∧ r.valorBanco = some 7 ∧
        r.tipoBanco = "pix" ∧ r.protocoloBanco = "p1") :=
  ⟨by decide,
   (claim_C1 [⟨"pix", "p1", none, some 7⟩] []).2 0
     ⟨"pix", "p1", none, some 7⟩ (by decide)⟩

/-- C2: each ERP record is consumed by at most one bank record — the
consumed ERP indices of the output rows are pairwise distinct (each index
occurs at most once among the match sources). -/
theorem claim_C2 (banco : List BankRecord) (erp : List ErpRecord) :
    (matchedIdxs (conciliar_linha_a_linha banco erp)).Nodup ∧
    ∀ k, (matchedIdxs (conciliar_linha_a_linha banco erp)).count k ≤ 1 := by
  have h := conciliarAux_matched erp (index_por_valor erp) banco
    (inv_index_por_valor erp)
  exact ⟨h.1, fun k => List.nodup_iff_count_le_one.1 h.1 k⟩

/-- C3: a `Conciliado` output row's ERP amount equals exactly the absolute
value of its bank amount, and the match columns (ERP date, ERP amount,
supplier) are populated from the consumed ERP record. -/
theorem claim_C3 (banco : List BankRecord) (erp : List ErpRecord)
    (r : ReconciledRow) (hr : r ∈ conciliar_linha_a_linha banco erp)
    (hs : r.status = "Conciliado") :
    ∃ v idx e, r.valorBanco = some v ∧ r.idxErp = some idx ∧
      erp[idx]? = some e ∧ e.valor = some |v| ∧
      r.valorErp = some |v| ∧ r.valorErp = e.valor ∧
      r.dataErpQuitacao = e.quitacao ∧ r.fornecedorErp = e.fornecedor := by
  obtain ⟨b, g, hb, hg, rfl⟩ :=
    mem_conciliarAux erp (index_por_valor erp) banco r
      (inv_index_por_valor erp) hr
  cases hbv : b.valor with
  | none =>
    rw [conciliarStep_eq_none erp b g hbv] at hs
    simp [linhaBase] at hs
  | some v =>
    by_cases hv : 0 < v
    · rw [conciliarStep_eq_pos erp b g v hbv hv] at hs
      simp [linhaBase] at hs
    · cases hfq : g |v| with
      | nil =>
        rw [conciliarStep_eq_nomatch erp b g v hbv hv hfq] at hs
        simp [linhaBase] at hs
      | cons idx rest =>
        have hidx : idx ∈ g |v| := by
          rw [hfq]; exact List.mem_cons_self idx rest
        obtain ⟨hqpos, e, hget, hval⟩ := hg.2 |v| idx hidx
        rw [conciliarStep_eq_match erp b g v idx rest hbv hv hfq]
        exact ⟨v, idx, e, by simp [linhaBase, hbv], by simp, hget, hval,
               by simp [hget, hval], by simp [hget], by simp [hget],
               by simp [hget]⟩

/-- Witness for C3: a concrete `Conciliado` row. -/
theorem claim_C3_witness :
    ((⟨none, some (-150), "t", "p", some (1, 1, 2024), some 150, "forn",
        "Conciliado", some 0⟩ : ReconciledRow) ∈
        conciliar_linha_a_linha [⟨"t", "p", none, some (-150)⟩]
          [⟨some (1, 1, 2024), some 150, "forn"⟩] ∧
      (⟨none, some (-150), "t", "p", some (1, 1, 2024), some 150, "forn",
        "Conciliado", some 0⟩ : ReconciledRow).status = "Conciliado") ∧
    (∃ v idx e,
      (⟨none, some (-150), "t", "p", some (1, 1, 2024), some 150, "forn",
        "Conciliado", some 0⟩ : ReconciledRow).valorBanco = some v ∧
      (⟨none, some (-150), "t", "p", some (1, 1, 2024), some 150, "forn",
        "Conciliado", some 0⟩ : ReconciledRow).idxErp = some idx ∧
      ([⟨some (1, 1, 2024), some 150, "forn"⟩] : List ErpRecord)[idx]? =
        some e ∧
      e.valor = some |v| ∧
      (⟨none, some (-150), "t", "p", some (1, 1, 2024), some 150, "forn",
        "Conciliado", some 0⟩ : ReconciledRow).valorErp = some |v| ∧
      (⟨none, some (-150), "t", "p", some (1, 1, 2024), some 150, "forn",
        "Conciliado", some 0⟩ : ReconciledRow).valorErp = e.valor ∧
      (⟨none, some (-150), "t", "p", some (1, 1, 2024), some 150, "forn",
        "Conciliado", some 0⟩ : ReconciledRow).dataErpQuitacao = e.quitacao ∧
      (⟨none, some (-150), "t", "p", some (1, 1, 2024), some 150, "forn",
        "Conciliado", some 0⟩ : ReconciledRow).fornecedorErp =
        e.fornecedor) :=
  ⟨⟨by decide, by decide⟩,
   claim_C3 [⟨"t", "p", none, some (-150)⟩]
     [⟨some (1, 1, 2024), some 150, "forn"⟩]
     ⟨none, some (-150), "t", "p", some (1, 1, 2024), some 150, "forn",
       "Conciliado", some 0⟩ (by decide) (by decide)⟩

/-- C4: duplicate ERP amounts are consumed FIFO in original ERP order:
queues list indices in strictly increasing original order, a matching bank
record consumes exactly the queue head, and on ERP records
[100 (idx 0), 100 (idx 1)] with bank records [-100, -100] row 0 consumes
ERP index 0 and row 1 consumes ERP index 1. -/
theorem claim_C4 :
    (∀ (erp : List ErpRecord) (q : ℚ),
        (index_por_valor erp q).Pairwise (· < ·)) ∧
    (∀ (erp : List ErpRecord) (b : BankRecord) (f : ℚ → List ℕ) (v : ℚ)
        (idx : ℕ) (rest : List ℕ),
        b.valor = some v → ¬ 0 < v → f |v| = idx :: rest →
        (conciliarStep erp b f).1.idxErp = some idx ∧
        (conciliarStep erp b f).2 |v| = rest) ∧
    (conciliar_linha_a_linha
        [⟨"", "", none, some (-100)⟩, ⟨"", "", none, some (-100)⟩]
        [⟨none, some 100, "a"⟩, ⟨none, some 100, "b"⟩]).map (·.idxErp) =
      [some 0, some 1] := by
  refine ⟨index_por_valor_sorted,
          fun erp b f v idx rest hb hv hf => ?_, by decide⟩
  rw [conciliarStep_eq_match erp b f v idx rest hb hv hf]
  exact ⟨rfl, by simp⟩

/-- Witness for C4: the head of a concrete queue is consumed and removed. -/
theorem claim_C4_witness :
    ((⟨"", "", none, some (-3)⟩ : BankRecord).valor = some (-3) ∧
      ¬ (0 : ℚ) < -3 ∧
      (fun q : ℚ => if q = 3 then [4, 9] else []) |(-3 : ℚ)| = 4 :: [9]) ∧
    ((conciliarStep [] ⟨"", "", none, some (-3)⟩
        (fun q : ℚ => if q = 3 then [4, 9] else [])).1.idxErp = some 4 ∧
      (conciliarStep [] ⟨"", "", none, some (-3)⟩
        (fun q : ℚ => if q = 3 then [4, 9] else [])).2 |(-3 : ℚ)| = [9]) :=
  ⟨⟨rfl, by decide, by decide⟩,
   claim_C4.2.1 [] ⟨"", "", none, some (-3)⟩
     (fun q : ℚ => if q = 3 then [4, 9] else []) (-3) 4 [9] rfl
     (by decide) (by decide)⟩

/-- C5: a bank record with a present, strictly positive amount is
classified `Entrada no Banco`; the step leaves the index untouched (no ERP
record is consumed) and no match fields are populated. -/
theorem claim_C5 :
    (∀ (erp : List ErpRecord) (b : BankRecord) (f : ℚ → List ℕ) (v : ℚ),
        b.valor = some v → 0 < v →
        conciliarStep erp b f =
          ({ linhaBase b with status := "Entrada no Banco" }, f)) ∧
    (∀ (banco : List BankRecord) (erp : List ErpRecord) (r : ReconciledRow),
        r ∈ conciliar_linha_a_linha banco erp →
        ∀ v, r.valorBanco = some v → 0 < v →
        r.status = "Entrada no Banco" ∧ r.idxErp = none ∧ r.valorErp = none ∧
        r.dataErpQuitacao = none ∧ r.fornecedorErp = "") := by
  refine ⟨fun erp b f v hb hv => conciliarStep_eq_pos erp b f v hb hv,
          fun banco erp r hr v hvb hv => ?_⟩
  obtain ⟨b, g, hb, hg, rfl⟩ :=
    mem_conciliarAux erp (index_por_valor erp) banco r
      (inv_index_por_valor erp) hr
  rw [(conciliarStep_bankFields erp b g).2.1] at hvb
  rw [conciliarStep_eq_pos erp b g v hvb hv]
  simp [linhaBase]

/-- Witness for C5: a concrete positive bank record. -/
theorem claim_C5_witness :
    ((⟨none, some 5, "dep", "p9", none, none, "", "Entrada no Banco",
        none⟩ : ReconciledRow) ∈
        conciliar_linha_a_linha [⟨"dep", "p9", none, some 5⟩]
          [⟨none, some 5, "f"⟩] ∧
      (⟨none, some 5, "dep", "p9", none, none, "", "Entrada no Banco",
        none⟩ : ReconciledRow).valorBanco = some 5 ∧ (0 : ℚ) < 5) ∧
    ((⟨none, some 5, "dep", "p9", none, none, "", "Entrada no Banco",
        none⟩ : ReconciledRow).status = "Entrada no Banco" ∧
      (⟨none, some 5, "dep", "p9", none, none, "", "Entrada no Banco",
        none⟩ : ReconciledRow).idxErp = none ∧
      (⟨none, some 5, "dep", "p9", none, none, "", "Entrada no Banco",
        none⟩ : ReconciledRow).valorErp = none ∧
      (⟨none, some 5, "dep", "p9", none, none, "", "Entrada no Banco",
        none⟩ : ReconciledRow).dataErpQuitacao = none ∧
      (⟨none, some 5, "dep", "p9", none, none, "", "Entrada no Banco",
        none⟩ : ReconciledRow).fornecedorErp = "") :=
  ⟨⟨by decide, by decide, by decide⟩,
   claim_C5.2 [⟨"dep", "p9", none, some 5⟩] [⟨none, some 5, "f"⟩]
     ⟨none, some 5, "dep", "p9", none, none, "", "Entrada no Banco", none⟩
     (by decide) 5 (by decide) (by decide)⟩

/-- C6: a bank record whose amount failed to parse (the missing sentinel)
is classified `Zero ou inválido`; the step leaves the index untouched and
no match fields are populated — the parse failure surfaces as a status,
not as an exception (the function is total). -/
theorem claim_C6 :
    (∀ (erp : List ErpRecord) (b : BankRecord) (f : ℚ → List ℕ),
        b.valor = none →
        conciliarStep erp b f =
          ({ linhaBase b with status := "Zero ou inválido" }, f)) ∧
    (∀ (banco : List BankRecord) (erp : List ErpRecord) (r : ReconciledRow),
        r ∈ conciliar_linha_a_linha banco erp →
        r.valorBanco = none →
        r.status = "Zero ou inválido" ∧ r.idxErp = none ∧ r.valorErp = none ∧
        r.dataErpQuitacao = none ∧ r.fornecedorErp = "") := by
  refine ⟨fun erp b f hb => conciliarStep_eq_none erp b f hb,
          fun banco erp r hr hvb => ?_⟩
  obtain ⟨b, g, hb, hg, rfl⟩ :=
    mem_conciliarAux erp (index_por_valor erp) banco r
      (inv_index_por_valor erp) hr
  rw [(conciliarStep_bankFields erp b g).2.1] at hvb
  rw [conciliarStep_eq_none erp b g hvb]
  simp [linhaBase]

/-- Witness for C6: a concrete bank record with an unparseable amount. -/
theorem claim_C6_witness :
    ((⟨none, none, "x", "y", none, none, "", "Zero ou inválido",
        none⟩ : ReconciledRow) ∈
        conciliar_linha_a_linha [⟨"x", "y", none, none⟩] [⟨none, some 3, "f"⟩] ∧
      (⟨none, none, "x", "y", none, none, "", "Zero ou inválido",
        none⟩ : ReconciledRow).valorBanco = none) ∧
    ((⟨none, none, "x", "y", none, none, "", "Zero ou inválido",
        none⟩ : ReconciledRow).status = "Zero ou inválido" ∧
      (⟨none, none, "x", "y", none, none, "", "Zero ou inválido",
        none⟩ : ReconciledRow).idxErp = none ∧
      (⟨none, none, "x", "y", none, none, "", "Zero ou inválido",
        none⟩ : ReconciledRow).valorErp = none ∧
      (⟨none, none, "x", "y", none, none, "", "Zero ou inválido",
        none⟩ : ReconciledRow).dataErpQuitacao = none ∧
      (⟨none, none, "x", "y", none, none, "", "Zero ou inválido",
        none⟩ : ReconciledRow).fornecedorErp = "") :=
  ⟨⟨by decide, by decide⟩,
   claim_C6.2 [⟨"x", "y", none, none⟩] [⟨none, some 3, "f"⟩]
     ⟨none, none, "x", "y", none, none, "", "Zero ou inválido", none⟩
     (by decide) (by decide)⟩

/-- C10: a bank record with amount exactly 0 (not the sentinel) is always
`Não conciliado` with no match fields: only ERP rows with amount > 0 are
indexed, so the queue for absolute value 0 is provably empty. -/
theorem claim_C10 (banco : List BankRecord) (erp : List ErpRecord)
    (r : ReconciledRow) (hr : r ∈ conciliar_linha_a_linha banco erp)
    (h0 : r.valorBanco = some 0) :
    r.status = "Não conciliado" ∧ r.idxErp = none ∧ r.valorErp = none ∧
    r.dataErpQuitacao = none ∧ r.fornecedorErp = "" := by
  obtain ⟨b, g, hb, hg, rfl⟩ :=
    mem_conciliarAux erp (index_por_valor erp) banco r
      (inv_index_por_valor erp) hr
  rw [(conciliarStep_bankFields erp b g).2.1] at h0
  have hv : ¬ (0 : ℚ) < 0 := lt_irrefl 0
  have hg0 : g |(0 : ℚ)| = [] := by
    rw [abs_zero]
    by_contra hne
    obtain ⟨i, hi⟩ := List.exists_mem_of_ne_nil _ hne
    exact absurd (hg.2 0 i hi).1 (lt_irrefl 0)
  rw [conciliarStep_eq_nomatch erp b g 0 h0 hv hg0]
  simp [linhaBase]

/-- Witness for C10: a concrete zero-amount bank record against a
nonempty ERP input. -/
theorem claim_C10_witness :
    ((⟨none, some 0, "z", "p0", none, none, "", "Não conciliado",
        none⟩ : ReconciledRow) ∈
        conciliar_linha_a_linha [⟨"z", "p0", none, some 0⟩]
          [⟨none, some 1, "f"⟩] ∧
      (⟨none, some 0, "z", "p0", none, none, "", "Não conciliado",
        none⟩ : ReconciledRow).valorBanco = some 0) ∧
    ((⟨none, some 0, "z", "p0", none, none, "", "Não conciliado",
        none⟩ : ReconciledRow).status = "Não conciliado" ∧
      (⟨none, some 0, "z", "p0", none, none, "", "Não conciliado",
        none⟩ : ReconciledRow).idxErp = none ∧
      (⟨none, some 0, "z", "p0", none, none, "", "Não conciliado",
        none⟩ : ReconciledRow).valorErp = none ∧
      (⟨none, some 0, "z", "p0", none, none, "", "Não conciliado",
        none⟩ : ReconciledRow).dataErpQuitacao = none ∧
      (⟨none, some 0, "z", "p0", none, none, "", "Não conciliado",
        none⟩ : ReconciledRow).fornecedorErp = "") :=
  ⟨⟨by decide, by decide⟩,
   claim_C10 [⟨"z", "p0", none, some 0⟩] [⟨none, some 1, "f"⟩]
     ⟨none, some 0, "z", "p0", none, none, "", "Não conciliado", none⟩
     (by decide) (by decide)⟩

/-- C7: when a required column is missing (bank: `Data`, `Valor`; ERP:
`Quitação`, `Valor`), the reader fails with the missing-columns error,
which lists exactly the missing required columns and all columns found;
the failure does not depend on the rows (it happens before any row is
processed), and it is the only hard failure: with the required columns
present the readers always succeed. -/
theorem claim_C7 :
    (∀ (cols : List String) (rows : List (List String)),
        colunasFaltando ["Data", "Valor"] cols ≠ [] →
        ler_excel_banco ⟨cols, rows⟩ =
          .error ⟨colunasFaltando ["Data", "Valor"] cols, cols⟩) ∧
    (∀ (cols : List String) (rows : List (List String)),
        colunasFaltando ["Quitação", "Valor"] cols ≠ [] →
        ler_excel_conexa ⟨cols, rows⟩ =
          .error ⟨colunasFaltando ["Quitação", "Valor"] cols, cols⟩) ∧
    (∀ (obrig cols : List String) (c : String),
        c ∈ colunasFaltando obrig cols ↔
          c ∈ obrig ∧ temColuna cols c = false) ∧
    (∀ (cols : List String) (rows : List (List String)),
        colunasFaltando ["Data", "Valor"] cols = [] →
        ∃ recs, ler_excel_banco ⟨cols, rows⟩ = .ok recs) ∧
    (∀ (cols : List String) (rows : List (List String)),
        colunasFaltando ["Quitação", "Valor"] cols = [] →
        ∃ recs, ler_excel_conexa ⟨cols, rows⟩ = .ok recs) := by
  refine ⟨fun cols rows h => ?_, fun cols rows h => ?_,
          fun obrig cols c => ?_, fun cols rows h => ?_, fun cols rows h => ?_⟩
  · cases hc : colunasFaltando ["Data", "Valor"] cols with
    | nil => exact absurd hc h
    | cons a l => simp [ler_excel_banco, hc]
  · cases hc : colunasFaltando ["Quitação", "Valor"] cols with
    | nil => exact absurd hc h
    | cons a l => simp [ler_excel_conexa, hc]
  · simp [colunasFaltando, List.mem_filter]
  · cases hres : ler_excel_banco ⟨cols, rows⟩ with
    | ok recs => exact ⟨recs, rfl⟩
    | error e => simp [ler_excel_banco, h] at hres
  · cases hres : ler_excel_conexa ⟨cols, rows⟩ with
    | ok recs => exact ⟨recs, rfl⟩
    | error e => simp [ler_excel_conexa, h] at hres

/-- Witness for C7: a bank table lacking both required columns errors
with both names and the found columns, for any rows. -/
theorem claim_C7_witness :
    colunasFaltando ["Data", "Valor"] ["Tipo", "Protocolo"] ≠ [] ∧
    ler_excel_banco ⟨["Tipo", "Protocolo"], [["a", "b"]]⟩ =
      .error ⟨["Data", "Valor"], ["Tipo", "Protocolo"]⟩ :=
  ⟨by decide, claim_C7.1 ["Tipo", "Protocolo"] [["a", "b"]] (by decide)⟩

/-- C8, as stated, is false: the readers replace commas by dots but do
not strip thousands-separator dots, so `"1.234,56"` becomes `"1.234.56"`,
which is not a numeral; it parses to the missing sentinel, not to
1234.56. -/
theorem claim_C8_counterexample :
    substituirVirgulaPorPonto "1.234,56" = "1.234.56" ∧
    parseValor "1.234,56" = none ∧
    parseValor "1.234,56" ≠ some (mkRat 123456 100) := by decide

/-- C8 amended: commas are indeed normalized to dots before numeric
conversion, and a `Valor` string whose only separator is the decimal
comma (`"1234,56"`) parses to 1234.56;  but `"1.234,56"` — thousands dot
plus decimal comma — turns into the non-numeric `"1.234.56"` and yields
the missing sentinel instead of 1234.56. -/
theorem claim_C8_amended :
    substituirVirgulaPorPonto "1234,56" = "1234.56" ∧
    parseValor "1234,56" = some (mkRat 123456 100) ∧
    to_numeric "1234.56" = some (mkRat 123456 100) ∧
    substituirVirgulaPorPonto "1.234,56" = "1.234.56" ∧
    parseValor "1.234,56" = none := by decide

/-- C9, as stated, is false: the column-presence check strips whitespace
but is not case-tolerant — headers `"data"`, `"valor"` differ from the
required `"Data"`, `"Valor"` only by letter case, yet the lookup misses
them and the reader fails with the missing-columns error. -/
theorem claim_C9_counterexample :
    temColuna ["data", "valor"] "Data" = false ∧
    ler_excel_banco ⟨["data", "valor"], [["x", "y"]]⟩ =
      .error ⟨["Data", "Valor"], ["data", "valor"]⟩ := by decide

/-- C9 amended: the check is whitespace-tolerant only — column names are
stripped before lookup, so a header differing from a required name by
surrounding whitespace alone is found and never reported missing; a
case difference, however, does trigger the missing-column failure. -/
theorem claim_C9_amended :
    (∀ (columns : List String) (raw name : String),
        raw ∈ columns → strip raw = name → temColuna columns name = true) ∧
    (∀ (obrig columns : List String) (c : String),
        temColuna columns c = true → c ∉ colunasFaltando obrig columns) ∧
    ler_excel_banco ⟨["  Data  ", " Valor"], []⟩ = .ok [] ∧
    ler_excel_banco ⟨["data", "Valor"], []⟩ =
      .error ⟨["Data"], ["data", "Valor"]⟩ := by
  refine ⟨fun columns raw name hraw hstrip => ?_,
          fun obrig columns c h hc => ?_, by decide, by decide⟩
  · exact List.any_eq_true.2 ⟨raw, hraw, by simp [hstrip]⟩
  · rw [colunasFaltando, List.mem_filter] at hc
    simp [h] at hc

/-- Witness for C9: a concrete whitespace-padded header is found. -/
theorem claim_C9_witness :
    ("  Data " ∈ ["  Data ", "Valor"] ∧ strip "  Data " = "Data") ∧
    temColuna ["  Data ", "Valor"] "Data" = true :=
  ⟨⟨by decide, by decide⟩,
   claim_C9_amended.1 ["  Data ", "Valor"] "  Data " "Data"
     (by decide) (by decide)⟩

end Conciliacao
